import Mathlib

/-!
Verification of the listing-and-correlation pipeline of the crictl fork
(`cmd/crictl/list.go`, the `pids` variant, and the storage-configuration
loader in `cmd/crictl/lib.go`).

The Go sources are embedded shallowly:

* protobuf messages (`ContainerState`, `ContainerStateValue`,
  `ContainerFilter`, `Container`) become plain structures;
* the filesystem is a function from path strings to optionally-present
  parsed JSON documents (`none` models a failed `ioutil.ReadFile`);
* the gRPC `ListContainers` call is a function parameter from the wire
  filter to a list of containers or a transport error;
* `log.Fatalf` (process termination) is kept distinct from a returned
  `error` by the three-valued `RunResult` type;
* external helpers that are only called from these sources
  (`getTruncatedID`, `matchesRegex`, `convertContainerState`, the gjson
  lookups, the table-column constants) are modelled from the spec, as
  marked on each definition.
-/

/-- A parsed JSON document, the shape the gjson lookups operate on. -/
inductive Json where
  | null : Json
  | bool (b : Bool) : Json
  | num (n : Int) : Json
  | str (s : String) : Json
  | arr (xs : List Json) : Json
  | obj (fields : List (String × Json)) : Json

/-- First-match lookup of a key among the fields of a JSON object. -/
def lookupField : List (String × Json) → String → Option Json
  | [], _ => none
  | (k, v) :: rest, key => if k = key then some v else lookupField rest key

/-- Look a single key up in a document; non-objects have no keys. -/
def Json.getKey : Json → String → Option Json
  | .obj fields, k => lookupField fields k
  | _, _ => none

/-- Walk a dotted gjson path, one key per list element. -/
def jsonGetPath : Json → List String → Option Json
  | j, [] => some j
  | j, k :: ks =>
    match j.getKey k with
    | some v => jsonGetPath v ks
    | none => none

/-- Modelled from the spec: the gjson library is external to the sources;
the spec describes its use as tolerant path-based extraction where a
missing key or a wrong type yields an empty string, never an error.  A
string value is returned as is, a number as its decimal form (the `pid`
field is a JSON number); a missing path or any non-scalar value yields
the empty string. -/
def gjsonString (doc : Json) (path : List String) : String :=
  match jsonGetPath doc path with
  | some (.str s) => s
  | some (.num n) => toString n
  | _ => ""

/-- The CRI lifecycle-state enum `pb.ContainerState`. -/
inductive ContainerState where
  | CONTAINER_CREATED : ContainerState
  | CONTAINER_RUNNING : ContainerState
  | CONTAINER_EXITED : ContainerState
  | CONTAINER_UNKNOWN : ContainerState
deriving DecidableEq, Repr

/-- `pb.ContainerStateValue`: a wrapper holding one state. -/
structure ContainerStateValue where
  State : ContainerState
deriving DecidableEq, Repr

/-- `pb.ContainerFilter` restricted to the one field these sources set:
the optional lifecycle-state sub-filter (`nil` pointer = `none`). -/
structure ContainerFilter where
  State : Option ContainerStateValue
deriving DecidableEq, Repr

/-- `pb.Container` restricted to the fields the listing reads. -/
structure ContainerMetadata where
  Name : String
deriving DecidableEq, Repr

/-- A container summary as returned by the `ListContainers` RPC. -/
structure Container where
  Id : String
  Metadata : ContainerMetadata
  State : ContainerState
  CreatedAt : Int
deriving DecidableEq, Repr

/-- Result of running a command body: `ok`, a returned `error`, or
process termination through `log.Fatalf`. -/
inductive RunResult (α : Type) where
  | ok (a : α) : RunResult α
  | err (e : String) : RunResult α
  | fatal (msg : String) : RunResult α
deriving DecidableEq, Repr

/-- The option struct filled from the `ls` command's flags. -/
structure hcListOptions where
  all : Bool
  pid : String
  state : String
  nameRegexp : String
  noTrunc : Bool
  output : String
deriving DecidableEq, Repr

/-- The option struct filled from the `pids` command's flags
(no `no-trunc` flag on that command). -/
structure pidListOptions where
  all : Bool
  pid : String
  state : String
  nameRegexp : String
  output : String
deriving DecidableEq, Repr

/-- Modelled from the spec: Go's `strings.ToLower` is external; the spec
only needs case-folding of the ASCII state names, so the model lowers
each character with `Char.toLower`. -/
def asciiLower (s : String) : String := ⟨s.data.map Char.toLower⟩

/-- The filter-construction prefix shared verbatim by `hcListContainers`
and `pidListContainers` (list.go lines 99–123): when `all` is unset the
filter defaults to RUNNING; a non-empty `state` is lowered and mapped
through the fixed table, overwriting the default through the shared
`ContainerStateValue`; an unrecognized value hits `log.Fatalf`. -/
def buildFilter (all : Bool) (state : String) : RunResult ContainerFilter :=
  let filter0 : ContainerFilter :=
    if !all then { State := some { State := .CONTAINER_RUNNING } } else { State := none }
  if state ≠ "" then
    let lower := asciiLower state
    if lower = "created" then .ok { State := some { State := .CONTAINER_CREATED } }
    else if lower = "running" then .ok { State := some { State := .CONTAINER_RUNNING } }
    else if lower = "exited" then .ok { State := some { State := .CONTAINER_EXITED } }
    else if lower = "unknown" then .ok { State := some { State := .CONTAINER_UNKNOWN } }
    else .fatal "--state should be one of created, running, exited or unknown"
  else .ok filter0

/-- The fixed state table of list.go lines 107–119, as a partial map. -/
def mapStateString (state : String) : Option ContainerState :=
  let lower := asciiLower state
  if lower = "created" then some .CONTAINER_CREATED
  else if lower = "running" then some .CONTAINER_RUNNING
  else if lower = "exited" then some .CONTAINER_EXITED
  else if lower = "unknown" then some .CONTAINER_UNKNOWN
  else none

/-- The part of the execution environment the listing closes over:
the regex engine backing `matchesRegex`, the filesystem (a path maps to
a parsed document, `none` meaning `ioutil.ReadFile` fails), the storage
root directory `filepath.Join(GraphRoot, GraphDriverName+"-containers")`,
and the clock/humanizer behind the CREATED column. -/
structure ListEnv where
  matcher : String → String → Bool
  fs : String → Option Json
  root : String
  humanDur : Int → String
  now : Int

/-- Modelled from the spec: `matchesRegex` is external to the sources;
the spec says an empty pattern accepts every name, and matching against
a non-empty pattern is delegated to the regex engine (with engine
errors already folded into a `false` answer). -/
def matchesRegex (m : String → String → Bool) (pattern target : String) : Bool :=
  if pattern = "" then true else m pattern target

/-- Modelled from the spec: `convertContainerState` (the State Mapper)
is external to the sources; the spec says it totally maps the four
enum values to stable labels with an "unknown" fallback. -/
def convertContainerState (state : ContainerState) : String :=
  match state with
  | .CONTAINER_CREATED => "created"
  | .CONTAINER_RUNNING => "running"
  | .CONTAINER_EXITED => "exited"
  | .CONTAINER_UNKNOWN => "unknown"

/-- Modelled from the spec: `getTruncatedID` is external to the
sources; the spec fixes the truncation policy as a fixed-length prefix
of the full identifier.  Both call sites pass an empty prefix-to-strip
argument, which is therefore ignored by the model. -/
def truncatedIDLen : Nat := 13

/-- Modelled from the spec: fixed-length-prefix identifier truncation. -/
def getTruncatedID (id : String) (_toStrip : String) : String :=
  if truncatedIDLen < id.length then ⟨id.data.take truncatedIDLen⟩ else id

/-- `filepath.Join(root, id, "userdata", "config.json")`. -/
def configPath (root id : String) : String :=
  root ++ "/" ++ id ++ "/userdata/config.json"

/-- `filepath.Join(root, id, "userdata", "state.json")`. -/
def statePath (root id : String) : String :=
  root ++ "/" ++ id ++ "/userdata/state.json"

/-- `ioutil.ReadFile` composed with gjson parsing: a missing file is the
returned read error, a present file is its parsed document. -/
def readFile (fs : String → Option Json) (path : String) : Except String Json :=
  match fs path with
  | some j => .ok j
  | none => .error ("open " ++ path ++ ": no such file or directory")

/-- The record the `ls` command accumulates per container
(struct `hcListMessage` of list.go). -/
structure hcListMessage where
  ContainerId : String
  CTM : String
  State : String
  Name : String
  PID : String
  IP : String
  MountPoint : String
deriving DecidableEq, Repr

/-- The accumulated record set (struct `hcListResult` of list.go). -/
structure hcListResult where
  Containers : List hcListMessage
deriving DecidableEq, Repr

/-- Assembly of one `hcListMessage` from a summary and its two parsed
storage documents (list.go lines 143–171): humanized age, state label,
the three gjson extractions, and identifier truncation unless
`noTrunc`. -/
def hcAssemble (opts : hcListOptions) (env : ListEnv) (c : Container)
    (configJson stateJson : Json) : hcListMessage :=
  { ContainerId := if !opts.noTrunc then getTruncatedID c.Id "" else c.Id
    CTM := env.humanDur (env.now - c.CreatedAt) ++ " ago"
    State := convertContainerState c.State
    Name := c.Metadata.Name
    PID := gjsonString stateJson ["pid"]
    IP := gjsonString stateJson ["annotations", "io.kubernetes.cri-o.IP"]
    MountPoint := gjsonString configJson ["root", "path"] }

/-- The per-summary loop of `hcListContainers` (list.go lines 139–184):
skip summaries whose name misses the regex, read the two storage files
(propagating a failed read), assemble the record, and either append it,
or — when a pid filter is set — keep it only on exact match and `break`
out of the loop on the first match. -/
def hcProcess (opts : hcListOptions) (env : ListEnv) :
    List Container → Except String (List hcListMessage)
  | [] => .ok []
  | c :: rest =>
    if !(matchesRegex env.matcher opts.nameRegexp c.Metadata.Name) then
      hcProcess opts env rest
    else
      match readFile env.fs (configPath env.root c.Id) with
      | .error e => .error e
      | .ok configJson =>
        match readFile env.fs (statePath env.root c.Id) with
        | .error e => .error e
        | .ok stateJson =>
          let message := hcAssemble opts env c configJson stateJson
          if opts.pid ≠ "" then
            if opts.pid = message.PID then .ok [message]
            else hcProcess opts env rest
          else
            match hcProcess opts env rest with
            | .error e => .error e
            | .ok res => .ok (message :: res)

/-- Modelled from the spec: the table-column header constants are
defined outside the sources; the spec fixes a seven-column header. -/
def tableHeader : List String :=
  ["CONTAINER", "CREATED", "STATE", "NAME", "PID", "IP", "MOUNTPOINT"]

/-- `outputAsTable` of list.go lines 218–228: the header row followed by
one row per record, the identifier passed through `getTruncatedID`
again unconditionally. -/
def outputAsTable (obj : hcListResult) : List (List String) :=
  tableHeader ::
    obj.Containers.map (fun r =>
      [getTruncatedID r.ContainerId "", r.CTM, r.State, r.Name, r.PID, r.IP, r.MountPoint])

/-- What one invocation renders: the record set handed to the JSON or
YAML marshaller, or the rows handed to the table writer. -/
inductive RenderedOutput where
  | json (r : hcListResult) : RenderedOutput
  | yaml (r : hcListResult) : RenderedOutput
  | table (rows : List (List String)) : RenderedOutput
deriving DecidableEq, Repr

/-- The output switch of `hcListContainers` (list.go lines 186–195):
json, yaml, table and the empty default each select their encoding; any
other value is a returned error naming the offending value. -/
def renderOutput (output : String) (res : hcListResult) : RunResult RenderedOutput :=
  if output = "json" then .ok (.json res)
  else if output = "yaml" then .ok (.yaml res)
  else if output = "table" ∨ output = "" then .ok (.table (outputAsTable res))
  else .err ("unsupported output format \"" ++ output ++ "\"")

/-- `hcListContainers` end to end: build the wire filter (possibly
fatal), issue the RPC (modelled as the function argument `rpc`), run
the per-summary loop, and render.  A returned error at any stage stops
the invocation with that error and nothing is rendered. -/
def hcListContainersM (opts : hcListOptions) (env : ListEnv)
    (rpc : ContainerFilter → Except String (List Container)) : RunResult RenderedOutput :=
  match buildFilter opts.all opts.state with
  | .fatal msg => .fatal msg
  | .err e => .err e
  | .ok filter =>
    match rpc filter with
    | .error e => .err e
    | .ok containers =>
      match hcProcess opts env containers with
      | .error e => .err e
      | .ok messages => renderOutput opts.output { Containers := messages }

/-- The per-summary table loop of `pidListContainers` (part_001 lines
134–157): the same name filter, storage reads and extractions as the
`ls` loop, but the row is built directly (identifier always truncated)
and the pid option is nowhere consulted. -/
def pidProcessRows (opts : pidListOptions) (env : ListEnv) :
    List Container → Except String (List (List String))
  | [] => .ok []
  | c :: rest =>
    if !(matchesRegex env.matcher opts.nameRegexp c.Metadata.Name) then
      pidProcessRows opts env rest
    else
      match readFile env.fs (configPath env.root c.Id) with
      | .error e => .error e
      | .ok configJson =>
        match readFile env.fs (statePath env.root c.Id) with
        | .error e => .error e
        | .ok stateJson =>
          let row := [getTruncatedID c.Id "",
                      env.humanDur (env.now - c.CreatedAt) ++ " ago",
                      convertContainerState c.State,
                      c.Metadata.Name,
                      gjsonString stateJson ["pid"],
                      gjsonString stateJson ["annotations", "io.kubernetes.cri-o.IP"],
                      gjsonString configJson ["root", "path"]]
          match pidProcessRows opts env rest with
          | .error e => .error e
          | .ok rows => .ok (row :: rows)

/-- What one `pids` invocation renders: the raw RPC response handed to
the protobuf-JSON marshaller (or its YAML conversion), or table rows. -/
inductive PidRendered where
  | rawJson (resp : List Container) : PidRendered
  | rawYaml (resp : List Container) : PidRendered
  | table (rows : List (List String)) : PidRendered
deriving DecidableEq, Repr

/-- The table branch of `pidListContainers`: run the loop and prepend
the header; a failed storage read aborts with that error. -/
def pidTableRun (opts : pidListOptions) (env : ListEnv)
    (containers : List Container) : RunResult PidRendered :=
  match pidProcessRows opts env containers with
  | .error e => .err e
  | .ok rows => .ok (.table (tableHeader :: rows))

/-- `pidListContainers` end to end (part_001 lines 81–160): the same
filter construction and RPC, then the output switch comes first — the
json and yaml branches return the raw response before any storage
correlation or filtering; only the table branch runs the loop. -/
def pidListContainersM (opts : pidListOptions) (env : ListEnv)
    (rpc : ContainerFilter → Except String (List Container)) : RunResult PidRendered :=
  match buildFilter opts.all opts.state with
  | .fatal msg => .fatal msg
  | .err e => .err e
  | .ok filter =>
    match rpc filter with
    | .error e => .err e
    | .ok containers =>
      if opts.output = "json" then .ok (.rawJson containers)
      else if opts.output = "yaml" then .ok (.rawYaml containers)
      else if opts.output = "table" ∨ opts.output = "" then pidTableRun opts env containers
      else .err ("unsupported output format \"" ++ opts.output ++ "\"")

/-- `idtools.IDMap`: one contiguous block of an ID mapping. -/
structure IDMap where
  ContainerID : Int
  HostID : Int
  Size : Int
deriving DecidableEq, Repr

/-- `StoreOptions` of lib.go restricted to the fields the remap phase
and the listing read. -/
structure StoreOptions where
  RunRoot : String := ""
  GraphRoot : String := ""
  GraphDriverName : String := ""
  GraphDriverOptions : List String := []
  UIDMap : List IDMap := []
  GIDMap : List IDMap := []
deriving DecidableEq, Repr

/-- The mirroring of the remap directives in `ReloadConfigurationFile`
(lib.go lines 136–141): a non-empty user value is copied to an empty
group value, then a non-empty group value is copied to an empty user
value. -/
def mirrorRemap (remapUser remapGroup : String) : String × String :=
  let g := if remapUser ≠ "" ∧ remapGroup = "" then remapUser else remapGroup
  let u := if g ≠ "" ∧ remapUser = "" then g else remapUser
  (u, g)

/-- The remap phase of `ReloadConfigurationFile` (lib.go lines
136–150): after mirroring, if both values are non-empty the ID
mappings are built (`idtools.NewIDMappings` is external, passed as
`newIDMappings`); on success both maps of the store options are set
from the result, on failure the message is printed and the function
returns with the options unchanged. -/
def applyRemap (newIDMappings : String → String → Except String (List IDMap × List IDMap))
    (remapUser remapGroup : String) (so : StoreOptions) : StoreOptions :=
  let p := mirrorRemap remapUser remapGroup
  if p.1 ≠ "" ∧ p.2 ≠ "" then
    match newIDMappings p.1 p.2 with
    | .error _ => so
    | .ok maps => { so with UIDMap := maps.1, GIDMap := maps.2 }
  else so

/-!
Concrete data used by the witness and counterexample theorems below:
two containers with readable storage documents, an environment whose
filesystem knows both, and variants with missing files.
-/

/-- config.json of container c1. -/
def cfgA : Json := .obj [("root", .obj [("path", .str "/mnt/c1")])]

/-- state.json of container c1: pid and the IP annotation present. -/
def stA : Json :=
  .obj [("pid", .num 7), ("annotations", .obj [("io.kubernetes.cri-o.IP", .str "10.0.0.1")])]

/-- config.json of container c2. -/
def cfgB : Json := .obj [("root", .obj [("path", .str "/mnt/c2")])]

/-- state.json of container c2: same pid as c1, no annotations key. -/
def stB : Json := .obj [("pid", .num 7)]

/-- An environment whose filesystem holds the four documents above. -/
def envA : ListEnv :=
  { matcher := fun _ _ => true
    fs := fun p =>
      if p = "r/c1/userdata/config.json" then some cfgA
      else if p = "r/c1/userdata/state.json" then some stA
      else if p = "r/c2/userdata/config.json" then some cfgB
      else if p = "r/c2/userdata/state.json" then some stB
      else none
    root := "r"
    humanDur := fun _ => "2 hours"
    now := 0 }

/-- An environment with an empty filesystem: every read fails. -/
def envNone : ListEnv :=
  { matcher := fun _ _ => false
    fs := fun _ => none
    root := "r"
    humanDur := fun _ => "2 hours"
    now := 0 }

/-- Summary of container c1. -/
def cA : Container :=
  { Id := "c1", Metadata := { Name := "web" }, State := .CONTAINER_RUNNING, CreatedAt := 0 }

/-- Summary of container c2. -/
def cB : Container :=
  { Id := "c2", Metadata := { Name := "db" }, State := .CONTAINER_RUNNING, CreatedAt := 0 }

/-- Options for the pid-filter witness: `--pid=7`, no other filters. -/
def optsC1 : hcListOptions :=
  { all := true, pid := "7", state := "", nameRegexp := "", noTrunc := false, output := "" }

/-- An RPC endpoint returning the empty response. -/
def rpcNil : ContainerFilter → Except String (List Container) := fun _ => .ok []

/-- Options with an invalid `--state` value. -/
def opts5 : hcListOptions :=
  { all := false, pid := "", state := "Bogus", nameRegexp := "", noTrunc := false, output := "" }

/-- Options with a valid mixed-case `--state` value. -/
def opts5b : hcListOptions :=
  { all := false, pid := "", state := "Created", nameRegexp := "", noTrunc := false, output := "" }

/-- Options with every filter empty and table output. -/
def optsPlain : hcListOptions :=
  { all := true, pid := "", state := "", nameRegexp := "", noTrunc := false, output := "" }

/-- Options whose name pattern matches nothing under `envNone`. -/
def opts4 : hcListOptions :=
  { all := true, pid := "", state := "", nameRegexp := "x", noTrunc := false, output := "" }

/-- A container with no storage files in `envA`. -/
def cC : Container :=
  { Id := "c3", Metadata := { Name := "cache" }, State := .CONTAINER_RUNNING, CreatedAt := 0 }

/-- A container whose state.json is missing in `envB`. -/
def cD : Container :=
  { Id := "c4", Metadata := { Name := "proxy" }, State := .CONTAINER_RUNNING, CreatedAt := 0 }

/-- An environment where only c4's config.json exists. -/
def envB : ListEnv :=
  { matcher := fun _ _ => true
    fs := fun p => if p = "r/c4/userdata/config.json" then some cfgA else none
    root := "r"
    humanDur := fun _ => "2 hours"
    now := 0 }

/-- An RPC endpoint returning only c1. -/
def rpcA : ContainerFilter → Except String (List Container) := fun _ => .ok [cA]

/-- An RPC endpoint returning only c3 (whose files are missing). -/
def rpcC : ContainerFilter → Except String (List Container) := fun _ => .ok [cC]

/-- An RPC endpoint returning c1 then c2. -/
def rpcAB : ContainerFilter → Except String (List Container) := fun _ => .ok [cA, cB]

/-- An empty record set. -/
def res8 : hcListResult := { Containers := [] }

/-- Options with the unsupported output format "xml". -/
def opts8 : hcListOptions :=
  { all := true, pid := "", state := "", nameRegexp := "", noTrunc := false, output := "xml" }

/-- One UID mapping block. -/
def idm1 : IDMap := { ContainerID := 0, HostID := 1000, Size := 1 }

/-- One GID mapping block. -/
def idm2 : IDMap := { ContainerID := 0, HostID := 2000, Size := 1 }

/-- An ID-mapping builder that always succeeds with fixed maps. -/
def nimOk : String → String → Except String (List IDMap × List IDMap) :=
  fun _ _ => .ok ([idm1], [idm2])

/-- config.json of the long-identifier container. -/
def cfgL : Json := .obj [("root", .obj [("path", .str "/mnt/L")])]

/-- state.json of the long-identifier container (no annotations). -/
def stL : Json := .obj [("pid", .num 7)]

/-- A container whose 20-character identifier exceeds the truncation
length. -/
def cLong : Container :=
  { Id := "0123456789abcdefghij", Metadata := { Name := "long" },
    State := .CONTAINER_RUNNING, CreatedAt := 0 }

/-- An environment holding the long container's documents. -/
def envL : ListEnv :=
  { matcher := fun _ _ => true
    fs := fun p =>
      if p = "r/0123456789abcdefghij/userdata/config.json" then some cfgL
      else if p = "r/0123456789abcdefghij/userdata/state.json" then some stL
      else none
    root := "r"
    humanDur := fun _ => "2 hours"
    now := 0 }

/-- An RPC endpoint returning the long container. -/
def rpcL : ContainerFilter → Except String (List Container) := fun _ => .ok [cLong]

/-- Options with `--no-trunc` and table output. -/
def optsNT : hcListOptions :=
  { all := true, pid := "", state := "", nameRegexp := "", noTrunc := true, output := "" }

/-- Options with `--no-trunc` and json output. -/
def optsNTjson : hcListOptions :=
  { all := true, pid := "", state := "", nameRegexp := "", noTrunc := true, output := "json" }

/-- The record assembled from the long container with truncation off. -/
def msgL : hcListMessage :=
  { ContainerId := "0123456789abcdefghij"
    CTM := "2 hours ago"
    State := "running"
    Name := "long"
    PID := "7"
    IP := ""
    MountPoint := "/mnt/L" }

/-- An environment accepting every name whose filesystem is empty. -/
def envABad : ListEnv :=
  { matcher := fun _ _ => true
    fs := fun _ => none
    root := "r"
    humanDur := fun _ => "2 hours"
    now := 0 }

/-- `ls` options: pid filter 7, json output. -/
def optsHCjson7 : hcListOptions :=
  { all := true, pid := "7", state := "", nameRegexp := "", noTrunc := false, output := "json" }

/-- `ls` options: no pid filter, json output. -/
def optsHCjsonAll : hcListOptions :=
  { all := true, pid := "", state := "", nameRegexp := "", noTrunc := false, output := "json" }

/-- `ls` options: pid filter 7, yaml output. -/
def optsHCyaml7 : hcListOptions :=
  { all := true, pid := "7", state := "", nameRegexp := "", noTrunc := false, output := "yaml" }

/-- `ls` options: no pid filter, yaml output. -/
def optsHCyamlAll : hcListOptions :=
  { all := true, pid := "", state := "", nameRegexp := "", noTrunc := false, output := "yaml" }

/-- `ls` options: pid filter 7, table output. -/
def optsHCtable7 : hcListOptions :=
  { all := true, pid := "7", state := "", nameRegexp := "", noTrunc := false, output := "" }

/-- `ls` options: no pid filter, table output. -/
def optsHCtableAll : hcListOptions :=
  { all := true, pid := "", state := "", nameRegexp := "", noTrunc := false, output := "" }

/-- `pids` options: json output, with a name pattern set. -/
def optsPidJson : pidListOptions :=
  { all := true, pid := "", state := "", nameRegexp := "zzz", output := "json" }

/-- `pids` options: yaml output, with a name pattern set. -/
def optsPidYaml : pidListOptions :=
  { all := true, pid := "", state := "", nameRegexp := "zzz", output := "yaml" }

/-!
Helper lemmas about the per-summary loop.
-/

/-- The loop does nothing on an empty response. -/
lemma hcProcess_nil (opts : hcListOptions) (env : ListEnv) :
    hcProcess opts env [] = .ok [] := rfl

/-- One unfolding of the loop body. -/
lemma hcProcess_cons (opts : hcListOptions) (env : ListEnv) (c : Container)
    (rest : List Container) :
    hcProcess opts env (c :: rest) =
      if !(matchesRegex env.matcher opts.nameRegexp c.Metadata.Name) then
        hcProcess opts env rest
      else
        match readFile env.fs (configPath env.root c.Id) with
        | .error e => .error e
        | .ok configJson =>
          match readFile env.fs (statePath env.root c.Id) with
          | .error e => .error e
          | .ok stateJson =>
            let message := hcAssemble opts env c configJson stateJson
            if opts.pid ≠ "" then
              if opts.pid = message.PID then .ok [message]
              else hcProcess opts env rest
            else
              match hcProcess opts env rest with
              | .error e => .error e
              | .ok res => .ok (message :: res) := rfl

/-- With a pid filter set, a successful loop keeps at most one record,
and any kept record carries exactly the requested pid. -/
lemma hcProcess_pid_at_most_one (opts : hcListOptions) (env : ListEnv)
    (hp : opts.pid ≠ "") :
    ∀ (cs : List Container) (res : List hcListMessage),
      hcProcess opts env cs = .ok res →
        res.length ≤ 1 ∧ ∀ m ∈ res, m.PID = opts.pid := by
  intro cs
  induction cs with
  | nil =>
    intro res h
    rw [hcProcess_nil] at h
    cases h
    simp
  | cons c rest ih =>
    intro res h
    rw [hcProcess_cons] at h
    by_cases hm : matchesRegex env.matcher opts.nameRegexp c.Metadata.Name = true
    · simp only [hm, Bool.not_true, Bool.false_eq_true, if_false] at h
      cases hcfg : readFile env.fs (configPath env.root c.Id) with
      | error e => rw [hcfg] at h; cases h
      | ok configJson =>
        rw [hcfg] at h
        cases hst : readFile env.fs (statePath env.root c.Id) with
        | error e => rw [hst] at h; cases h
        | ok stateJson =>
          rw [hst] at h
          simp only [hp, ne_eq, not_false_iff, if_true] at h
          by_cases hq : opts.pid = (hcAssemble opts env c configJson stateJson).PID
          · simp only [hq, if_pos] at h
            cases h
            constructor
            · simp
            · intro m hm'
              simp at hm'
              subst hm'
              exact hq.symm
          · simp only [hq, if_neg, if_false] at h
            exact ih res h
    · simp only [Bool.not_eq_true] at hm
      simp only [hm, Bool.not_false, if_true] at h
      exact ih res h

/-- With a pid filter set, once the loop has produced a (necessarily
non-empty) match it has broken out: any summaries appended after the
consumed response leave the result untouched. -/
lemma hcProcess_pid_early_stop (opts : hcListOptions) (env : ListEnv)
    (hp : opts.pid ≠ "") :
    ∀ (cs : List Container) (res : List hcListMessage),
      hcProcess opts env cs = .ok res → res ≠ [] →
        ∀ extra, hcProcess opts env (cs ++ extra) = .ok res := by
  intro cs
  induction cs with
  | nil =>
    intro res h hne
    rw [hcProcess_nil] at h
    cases h
    exact absurd rfl hne
  | cons c rest ih =>
    intro res h hne extra
    rw [hcProcess_cons] at h
    rw [List.cons_append, hcProcess_cons]
    by_cases hm : matchesRegex env.matcher opts.nameRegexp c.Metadata.Name = true
    · simp only [hm, Bool.not_true, Bool.false_eq_true, if_false] at h ⊢
      cases hcfg : readFile env.fs (configPath env.root c.Id) with
      | error e => rw [hcfg] at h; cases h
      | ok configJson =>
        rw [hcfg] at h
        cases hst : readFile env.fs (statePath env.root c.Id) with
        | error e => rw [hst] at h; cases h
        | ok stateJson =>
          rw [hst] at h
          simp only [hp, ne_eq, not_false_iff, if_true] at h ⊢
          by_cases hq : opts.pid = (hcAssemble opts env c configJson stateJson).PID
          · simp only [hq, if_pos] at h ⊢
            exact h
          · simp only [hq, if_neg, if_false] at h ⊢
            exact ih res h hne extra
    · simp only [Bool.not_eq_true] at hm
      simp only [hm, Bool.not_false, if_true] at h ⊢
      exact ih res h hne extra

/-- With a pid filter set, a name-matching head summary whose readable
state document reports exactly the requested pid is taken alone,
whatever summaries follow it. -/
lemma hcProcess_pid_head_match (opts : hcListOptions) (env : ListEnv)
    (hp : opts.pid ≠ "") (c : Container) (cs : List Container)
    (configJson stateJson : Json)
    (hm : matchesRegex env.matcher opts.nameRegexp c.Metadata.Name = true)
    (hcfg : env.fs (configPath env.root c.Id) = some configJson)
    (hst : env.fs (statePath env.root c.Id) = some stateJson)
    (hq : gjsonString stateJson ["pid"] = opts.pid) :
    hcProcess opts env (c :: cs) = .ok [hcAssemble opts env c configJson stateJson] := by
  have hpid : opts.pid = (hcAssemble opts env c configJson stateJson).PID := by
    simp [hcAssemble, hq]
  rw [hcProcess_cons]
  simp only [hm, Bool.not_true, Bool.false_eq_true, if_false, readFile, hcfg, hst]
  rw [if_pos hp, if_pos hpid]

/-- Claim C1: with a non-empty pid option, the `ls` listing loop
accumulates at most one record and that record's process-id string
equals the requested pid exactly; a name-matching summary whose
extracted pid equals the request becomes the sole result the moment it
is reached (first match in RPC response order); and once a non-empty
result is produced the loop has terminated early — appending any
further summaries to the response leaves the result unchanged, so no
record after the first match is evaluated. -/
theorem claim_C1_pid_filter (opts : hcListOptions) (env : ListEnv) (hp : opts.pid ≠ "") :
    (∀ (cs : List Container) (res : List hcListMessage),
        hcProcess opts env cs = .ok res →
          res.length ≤ 1 ∧ ∀ m ∈ res, m.PID = opts.pid) ∧
    (∀ (cs : List Container) (res : List hcListMessage),
        hcProcess opts env cs = .ok res → res ≠ [] →
          ∀ extra, hcProcess opts env (cs ++ extra) = .ok res) ∧
    (∀ (c : Container) (cs : List Container) (configJson stateJson : Json),
        matchesRegex env.matcher opts.nameRegexp c.Metadata.Name = true →
        env.fs (configPath env.root c.Id) = some configJson →
        env.fs (statePath env.root c.Id) = some stateJson →
        gjsonString stateJson ["pid"] = opts.pid →
        hcProcess opts env (c :: cs) = .ok [hcAssemble opts env c configJson stateJson]) :=
  ⟨hcProcess_pid_at_most_one opts env hp,
   hcProcess_pid_early_stop opts env hp,
   fun c cs cj sj hm hcfg hst hq =>
     hcProcess_pid_head_match opts env hp c cs cj sj hm hcfg hst hq⟩

/-- Witness for C1 at `--pid=7` over a two-container response whose
containers both report pid 7: the first one is kept alone, and the
result over the extended response equals the result cut at the match. -/
theorem claim_C1_pid_filter_witness :
    hcProcess optsC1 envA ([cA] ++ [cB]) = .ok [hcAssemble optsC1 envA cA cfgA stA] ∧
    [hcAssemble optsC1 envA cA cfgA stA].length ≤ 1 ∧
    ∀ m ∈ [hcAssemble optsC1 envA cA cfgA stA], m.PID = optsC1.pid := by
  have h := claim_C1_pid_filter optsC1 envA (by decide)
  have hhead := h.2.2 cA [] cfgA stA rfl rfl rfl rfl
  have hmost := h.1 [cA] _ hhead
  exact ⟨h.2.1 [cA] _ hhead (by simp) [cB], hmost.1, hmost.2⟩

/-- A non-empty valid `--state` maps the wire filter to the table value,
for either value of `all` (last writer wins, not an intersection). -/
lemma buildFilter_valid_state (all : Bool) (s : String) (st : ContainerState)
    (hs : s ≠ "") (hm : mapStateString s = some st) :
    buildFilter all s = .ok { State := some { State := st } } := by
  unfold mapStateString at hm
  unfold buildFilter
  rw [if_pos hs]
  dsimp only at hm ⊢
  split_ifs at hm ⊢ <;> simp_all

/-- A non-empty `--state` outside the table hits `log.Fatalf`. -/
lemma buildFilter_invalid_fatal (all : Bool) (s : String)
    (hs : s ≠ "") (hm : mapStateString s = none) :
    buildFilter all s = .fatal "--state should be one of created, running, exited or unknown" := by
  unfold mapStateString at hm
  unfold buildFilter
  rw [if_pos hs]
  dsimp only at hm ⊢
  split_ifs at hm ⊢
  rfl

/-- The table misses a value exactly when its case-folding is none of
the four state names. -/
lemma mapStateString_none_of_not_mem (s : String)
    (h : asciiLower s ∉ (["created", "running", "exited", "unknown"] : List String)) :
    mapStateString s = none := by
  unfold mapStateString
  dsimp only
  split_ifs with h1 h2 h3 h4 <;> simp_all

/-- Claim C2: with `all=false` and empty `state` the wire filter carries
the RUNNING constraint; with `all=true` and empty `state` it carries no
state constraint; and a non-empty valid `state` sets the wire filter's
state to exactly the table-mapped value for either value of `all`,
replacing the `all`-derived default rather than intersecting with it. -/
theorem claim_C2_filter_state_compose :
    buildFilter false "" = .ok { State := some { State := .CONTAINER_RUNNING } } ∧
    buildFilter true "" = .ok { State := none } ∧
    ∀ (all : Bool) (s : String) (st : ContainerState), s ≠ "" →
      mapStateString s = some st →
      buildFilter all s = .ok { State := some { State := st } } :=
  ⟨by decide, by decide, fun all s st hs hm => buildFilter_valid_state all s st hs hm⟩

/-- Witness for C2: `--state=Exited` with `all=false` replaces the
RUNNING default with EXITED. -/
theorem claim_C2_filter_state_compose_witness :
    buildFilter false "Exited" = .ok { State := some { State := .CONTAINER_EXITED } } :=
  claim_C2_filter_state_compose.2.2 false "Exited" .CONTAINER_EXITED (by decide) (by decide)

/-- Claim C5: a non-empty `--state` outside {created, running, exited,
unknown} after case-folding terminates the whole invocation through
`log.Fatalf`, uniformly in the RPC endpoint and the environment — in
particular before the `ListContainers` RPC is issued; and every value
inside the set maps the wire filter's state enum to the table-mapped
value. -/
theorem claim_C5_state_validation (opts : hcListOptions) (env : ListEnv)
    (rpc : ContainerFilter → Except String (List Container)) :
    (opts.state ≠ "" →
      asciiLower opts.state ∉ (["created", "running", "exited", "unknown"] : List String) →
      hcListContainersM opts env rpc =
        .fatal "--state should be one of created, running, exited or unknown") ∧
    (∀ st : ContainerState, opts.state ≠ "" → mapStateString opts.state = some st →
      buildFilter opts.all opts.state = .ok { State := some { State := st } }) := by
  constructor
  · intro h1 h2
    have hm := mapStateString_none_of_not_mem opts.state h2
    unfold hcListContainersM
    rw [buildFilter_invalid_fatal opts.all opts.state h1 hm]
  · intro st h1 hm
    exact buildFilter_valid_state opts.all opts.state st h1 hm

/-- Witness for C5: `--state=Bogus` is fatal before the RPC, and the
mixed-case valid value `Created` maps to the CREATED enum. -/
theorem claim_C5_state_validation_witness :
    hcListContainersM opts5 envNone rpcNil =
      .fatal "--state should be one of created, running, exited or unknown" ∧
    buildFilter opts5b.all opts5b.state = .ok { State := some { State := .CONTAINER_CREATED } } :=
  ⟨(claim_C5_state_validation opts5 envNone rpcNil).1 (by decide) (by decide),
   (claim_C5_state_validation opts5b envNone rpcNil).2 .CONTAINER_CREATED (by decide) (by decide)⟩

/-- A summary whose name misses the regex is skipped wholesale: no file
is consulted, the loop continues on the tail. -/
lemma hcProcess_skip_name (opts : hcListOptions) (env : ListEnv) (c : Container)
    (cs : List Container)
    (hm : matchesRegex env.matcher opts.nameRegexp c.Metadata.Name = false) :
    hcProcess opts env (c :: cs) = hcProcess opts env cs := by
  rw [hcProcess_cons]
  simp only [hm, Bool.not_false, if_true]

/-- A name-matching summary whose config.json is unreadable aborts the
loop with the read error, whatever summaries follow. -/
lemma hcProcess_config_missing (opts : hcListOptions) (env : ListEnv) (c : Container)
    (cs : List Container)
    (hm : matchesRegex env.matcher opts.nameRegexp c.Metadata.Name = true)
    (hcfg : env.fs (configPath env.root c.Id) = none) :
    hcProcess opts env (c :: cs) =
      .error ("open " ++ configPath env.root c.Id ++ ": no such file or directory") := by
  rw [hcProcess_cons]
  simp only [hm, Bool.not_true, Bool.false_eq_true, if_false, readFile, hcfg]

/-- A name-matching summary whose state.json is unreadable aborts the
loop with the read error. -/
lemma hcProcess_state_missing (opts : hcListOptions) (env : ListEnv) (c : Container)
    (cs : List Container) (configJson : Json)
    (hm : matchesRegex env.matcher opts.nameRegexp c.Metadata.Name = true)
    (hcfg : env.fs (configPath env.root c.Id) = some configJson)
    (hst : env.fs (statePath env.root c.Id) = none) :
    hcProcess opts env (c :: cs) =
      .error ("open " ++ statePath env.root c.Id ++ ": no such file or directory") := by
  rw [hcProcess_cons]
  simp only [hm, Bool.not_true, Bool.false_eq_true, if_false, readFile, hcfg, hst]

/-- A loop error arising in the tail passes a readable, non-breaking
head summary unchanged. -/
lemma hcProcess_tail_error (opts : hcListOptions) (env : ListEnv) (c : Container)
    (cs : List Container) (configJson stateJson : Json) (e : String)
    (hm : matchesRegex env.matcher opts.nameRegexp c.Metadata.Name = true)
    (hcfg : env.fs (configPath env.root c.Id) = some configJson)
    (hst : env.fs (statePath env.root c.Id) = some stateJson)
    (hpid : opts.pid = "" ∨ opts.pid ≠ gjsonString stateJson ["pid"])
    (he : hcProcess opts env cs = .error e) :
    hcProcess opts env (c :: cs) = .error e := by
  rw [hcProcess_cons]
  simp only [hm, Bool.not_true, Bool.false_eq_true, if_false, readFile, hcfg, hst]
  rcases hpid with h0 | hne
  · rw [if_neg (by simp [h0]), he]
  · have hq : opts.pid ≠ (hcAssemble opts env c configJson stateJson).PID := by
      simpa [hcAssemble] using hne
    by_cases hp : opts.pid ≠ ""
    · rw [if_pos hp, if_neg hq]
      exact he
    · rw [if_neg hp, he]

/-- A loop error reaches the top of `hcListContainers` as the returned
error: the render stage is never entered. -/
lemma hcRun_loop_error (opts : hcListOptions) (env : ListEnv)
    (rpc : ContainerFilter → Except String (List Container))
    (f : ContainerFilter) (cs : List Container) (e : String)
    (hf : buildFilter opts.all opts.state = .ok f) (hr : rpc f = .ok cs)
    (hp : hcProcess opts env cs = .error e) :
    hcListContainersM opts env rpc = .err e := by
  unfold hcListContainersM
  rw [hf]
  dsimp only
  rw [hr]
  dsimp only
  rw [hp]

/-- A readable, non-breaking head summary prepends its record to
whatever the tail produced (no pid filter set). -/
lemma hcProcess_keeps_record (opts : hcListOptions) (env : ListEnv) (c : Container)
    (cs : List Container) (configJson stateJson : Json) (res : List hcListMessage)
    (hp : opts.pid = "")
    (hm : matchesRegex env.matcher opts.nameRegexp c.Metadata.Name = true)
    (hcfg : env.fs (configPath env.root c.Id) = some configJson)
    (hst : env.fs (statePath env.root c.Id) = some stateJson)
    (hres : hcProcess opts env cs = .ok res) :
    hcProcess opts env (c :: cs) = .ok (hcAssemble opts env c configJson stateJson :: res) := by
  rw [hcProcess_cons]
  simp only [hm, Bool.not_true, Bool.false_eq_true, if_false, readFile, hcfg, hst]
  rw [if_neg (by simp [hp]), hres]

/-- A path missing from the document extracts as the empty string. -/
lemma gjsonString_empty_of_missing (doc : Json) (path : List String)
    (h : jsonGetPath doc path = none) : gjsonString doc path = "" := by
  unfold gjsonString
  rw [h]

/-- A present value that is neither a string nor a number extracts as
the empty string. -/
lemma gjsonString_empty_of_nonscalar (doc : Json) (path : List String) (v : Json)
    (h : jsonGetPath doc path = some v)
    (hs : ∀ s, v ≠ .str s) (hn : ∀ n, v ≠ .num n) : gjsonString doc path = "" := by
  unfold gjsonString
  rw [h]
  cases v with
  | str s => exact absurd rfl (hs s)
  | num n => exact absurd rfl (hn n)
  | null => rfl
  | bool b => rfl
  | arr xs => rfl
  | obj fields => rfl

/-- An output value outside the switch is the returned error naming
that value. -/
lemma renderOutput_unknown (out : String) (r : hcListResult)
    (hnot : out ∉ (["", "json", "yaml", "table"] : List String)) :
    renderOutput out r = .err ("unsupported output format \"" ++ out ++ "\"") := by
  simp only [List.mem_cons, List.mem_singleton, not_or] at hnot
  obtain ⟨he, hj, hy, ht⟩ := hnot
  unfold renderOutput
  rw [if_neg hj, if_neg hy, if_neg (by tauto)]

/-- One unfolding of the `pids` table loop body. -/
lemma pidProcessRows_cons (opts : pidListOptions) (env : ListEnv) (c : Container)
    (rest : List Container) :
    pidProcessRows opts env (c :: rest) =
      if !(matchesRegex env.matcher opts.nameRegexp c.Metadata.Name) then
        pidProcessRows opts env rest
      else
        match readFile env.fs (configPath env.root c.Id) with
        | .error e => .error e
        | .ok configJson =>
          match readFile env.fs (statePath env.root c.Id) with
          | .error e => .error e
          | .ok stateJson =>
            let row := [getTruncatedID c.Id "",
                        env.humanDur (env.now - c.CreatedAt) ++ " ago",
                        convertContainerState c.State,
                        c.Metadata.Name,
                        gjsonString stateJson ["pid"],
                        gjsonString stateJson ["annotations", "io.kubernetes.cri-o.IP"],
                        gjsonString configJson ["root", "path"]]
            match pidProcessRows opts env rest with
            | .error e => .error e
            | .ok rows => .ok (row :: rows) := rfl

/-- The `pids` table loop never reads the pid option. -/
lemma pidProcessRows_pid_irrel (opts : pidListOptions) (env : ListEnv) (p : String) :
    ∀ cs, pidProcessRows { opts with pid := p } env cs = pidProcessRows opts env cs := by
  intro cs
  induction cs with
  | nil => rfl
  | cons c rest ih =>
    rw [pidProcessRows_cons, pidProcessRows_cons]
    dsimp only
    rw [ih]

/-- No branch of `pidListContainers` reads the pid option. -/
lemma pidListContainersM_pid_irrel (opts : pidListOptions) (env : ListEnv)
    (rpc : ContainerFilter → Except String (List Container)) (p : String) :
    pidListContainersM { opts with pid := p } env rpc = pidListContainersM opts env rpc := by
  unfold pidListContainersM
  dsimp only
  cases buildFilter opts.all opts.state with
  | fatal m => rfl
  | err e => rfl
  | ok f =>
    dsimp only
    cases rpc f with
    | error e => rfl
    | ok cs =>
      dsimp only
      by_cases hj : opts.output = "json"
      · simp [hj]
      · by_cases hy : opts.output = "yaml"
        · simp [hj, hy]
        · by_cases ht : opts.output = "table" ∨ opts.output = ""
          · simp [hj, hy, ht, pidTableRun, pidProcessRows_pid_irrel]
          · simp [hj, hy, ht]

/-- With json output, `pidListContainers` returns the raw RPC response:
no storage read, no name filter, no pid filter. -/
lemma pidListContainersM_json_raw (opts : pidListOptions) (env : ListEnv)
    (rpc : ContainerFilter → Except String (List Container))
    (f : ContainerFilter) (cs : List Container)
    (hf : buildFilter opts.all opts.state = .ok f) (hr : rpc f = .ok cs)
    (ho : opts.output = "json") :
    pidListContainersM opts env rpc = .ok (.rawJson cs) := by
  unfold pidListContainersM
  rw [hf]
  dsimp only
  rw [hr]
  dsimp only
  rw [ho]
  rfl

/-- With yaml output, `pidListContainers` returns the raw RPC response
converted through its JSON form. -/
lemma pidListContainersM_yaml_raw (opts : pidListOptions) (env : ListEnv)
    (rpc : ContainerFilter → Except String (List Container))
    (f : ContainerFilter) (cs : List Container)
    (hf : buildFilter opts.all opts.state = .ok f) (hr : rpc f = .ok cs)
    (ho : opts.output = "yaml") :
    pidListContainersM opts env rpc = .ok (.rawYaml cs) := by
  unfold pidListContainersM
  rw [hf]
  dsimp only
  rw [hr]
  dsimp only
  rw [ho]
  rfl

/-- Claim C3's divergence, evaluated: with `--no-trunc` set and the same
long-identifier record, the json branch serializes the full identifier
while the table branch (which unconditionally passes the identifier
through `getTruncatedID` again) prints the 13-character prefix — the
same invocation parameters show different identifier values per format,
so `--no-trunc` does not reach the table renderer. -/
theorem claim_C3_no_trunc_table_divergence :
    hcListContainersM optsNTjson envL rpcL = .ok (.json { Containers := [msgL] }) ∧
    hcListContainersM optsNT envL rpcL =
      .ok (.table [tableHeader,
        ["0123456789abc", "2 hours ago", "running", "long", "7", "", "/mnt/L"]]) ∧
    ("0123456789abc" : String) ≠ "0123456789abcdefghij" :=
  ⟨rfl, rfl, by decide⟩

/-- Counterexample to claim C4: a summary whose name misses the regex is
skipped before storage correlation, so its missing storage files do not
abort the listing — the run succeeds and renders the empty table. -/
theorem claim_C4_counterexample :
    matchesRegex envNone.matcher opts4.nameRegexp cA.Metadata.Name = false ∧
    envNone.fs (configPath envNone.root cA.Id) = none ∧
    envNone.fs (statePath envNone.root cA.Id) = none ∧
    hcProcess opts4 envNone [cA] = .ok [] ∧
    hcListContainersM opts4 envNone rpcA = .ok (.table [tableHeader]) :=
  ⟨rfl, rfl, rfl, rfl, rfl⟩

/-- Claim C4 as amended: the orchestrator applies the name filter first;
a summary whose name misses the regex undergoes no storage correlation
(the loop step is the identity on it, for any filesystem), while a
name-matching summary is correlated — and only then — so its missing
config.json aborts the listing with the read error. -/
theorem claim_C4_name_filter_first (opts : hcListOptions) (env : ListEnv)
    (c : Container) (cs : List Container) :
    (matchesRegex env.matcher opts.nameRegexp c.Metadata.Name = false →
      hcProcess opts env (c :: cs) = hcProcess opts env cs) ∧
    (matchesRegex env.matcher opts.nameRegexp c.Metadata.Name = true →
      env.fs (configPath env.root c.Id) = none →
      hcProcess opts env (c :: cs) =
        .error ("open " ++ configPath env.root c.Id ++ ": no such file or directory")) :=
  ⟨fun hm => hcProcess_skip_name opts env c cs hm,
   fun hm hcfg => hcProcess_config_missing opts env c cs hm hcfg⟩

/-- Witness for the amended C4: the non-matching summary is skipped (its
step is the identity), and a matching summary with no files aborts. -/
theorem claim_C4_name_filter_first_witness :
    hcProcess opts4 envNone [cA] = hcProcess opts4 envNone [] ∧
    hcProcess optsPlain envA [cC] =
      .error "open r/c3/userdata/config.json: no such file or directory" :=
  ⟨(claim_C4_name_filter_first opts4 envNone cA []).1 rfl,
   (claim_C4_name_filter_first optsPlain envA cC []).2 rfl rfl⟩

/-- Claim C6: a failed read of config.json or state.json for an
evaluated summary aborts the loop with that error at once (whatever
summaries follow); such an error passes unchanged through earlier
readable summaries; and it surfaces as the returned error of the whole
invocation, which therefore produces no rendered output of any format. -/
theorem claim_C6_storage_error_aborts (opts : hcListOptions) (env : ListEnv) :
    (∀ (c : Container) (cs : List Container),
      matchesRegex env.matcher opts.nameRegexp c.Metadata.Name = true →
      env.fs (configPath env.root c.Id) = none →
      hcProcess opts env (c :: cs) =
        .error ("open " ++ configPath env.root c.Id ++ ": no such file or directory")) ∧
    (∀ (c : Container) (cs : List Container) (configJson : Json),
      matchesRegex env.matcher opts.nameRegexp c.Metadata.Name = true →
      env.fs (configPath env.root c.Id) = some configJson →
      env.fs (statePath env.root c.Id) = none →
      hcProcess opts env (c :: cs) =
        .error ("open " ++ statePath env.root c.Id ++ ": no such file or directory")) ∧
    (∀ (c : Container) (cs : List Container) (configJson stateJson : Json) (e : String),
      matchesRegex env.matcher opts.nameRegexp c.Metadata.Name = true →
      env.fs (configPath env.root c.Id) = some configJson →
      env.fs (statePath env.root c.Id) = some stateJson →
      opts.pid = "" ∨ opts.pid ≠ gjsonString stateJson ["pid"] →
      hcProcess opts env cs = .error e →
      hcProcess opts env (c :: cs) = .error e) ∧
    (∀ (rpc : ContainerFilter → Except String (List Container))
      (f : ContainerFilter) (cs : List Container) (e : String),
      buildFilter opts.all opts.state = .ok f → rpc f = .ok cs →
      hcProcess opts env cs = .error e →
      hcListContainersM opts env rpc = .err e ∧
        ∀ x, hcListContainersM opts env rpc ≠ .ok x) := by
  refine ⟨fun c cs hm hcfg => hcProcess_config_missing opts env c cs hm hcfg,
          fun c cs cj hm hcfg hst => hcProcess_state_missing opts env c cs cj hm hcfg hst,
          fun c cs cj sj e hm hcfg hst hpid he =>
            hcProcess_tail_error opts env c cs cj sj e hm hcfg hst hpid he,
          fun rpc f cs e hf hr hp => ?_⟩
  have herr := hcRun_loop_error opts env rpc f cs e hf hr hp
  exact ⟨herr, fun x hx => by rw [herr] at hx; cases hx⟩

/-- Witness for C6: a missing config.json aborts, a missing state.json
aborts, the error passes a readable earlier summary, and the whole
invocation returns it with nothing rendered. -/
theorem claim_C6_storage_error_aborts_witness :
    hcProcess optsPlain envA [cC] =
      .error "open r/c3/userdata/config.json: no such file or directory" ∧
    hcProcess optsPlain envB [cD] =
      .error "open r/c4/userdata/state.json: no such file or directory" ∧
    hcProcess optsPlain envA [cA, cC] =
      .error "open r/c3/userdata/config.json: no such file or directory" ∧
    hcListContainersM optsPlain envA rpcC =
      .err "open r/c3/userdata/config.json: no such file or directory" := by
  have h := claim_C6_storage_error_aborts optsPlain envA
  have hB := claim_C6_storage_error_aborts optsPlain envB
  have h1 := h.1 cC [] rfl rfl
  refine ⟨h1, hB.2.1 cD [] cfgA rfl rfl rfl, ?_, ?_⟩
  · exact h.2.2.1 cA [cC] cfgA stA "open r/c3/userdata/config.json: no such file or directory"
      rfl rfl rfl (Or.inl rfl) h1
  · exact (h.2.2.2 rpcC { State := none } [cC]
      "open r/c3/userdata/config.json: no such file or directory" rfl rfl h1).1

/-- Claim C7: when both storage files of a container are readable, a
missing field — the mount-point path, the pid, or the IP annotation
key — yields the empty string in the assembled record, as does a
present value of a non-scalar (wrong) type; and the record still
appears in the accumulated output, the loop never aborting over a
missing field. -/
theorem claim_C7_tolerated_absence (opts : hcListOptions) (env : ListEnv)
    (c : Container) (cs : List Container) (configJson stateJson : Json) :
    (jsonGetPath configJson ["root", "path"] = none →
      (hcAssemble opts env c configJson stateJson).MountPoint = "") ∧
    (jsonGetPath stateJson ["pid"] = none →
      (hcAssemble opts env c configJson stateJson).PID = "") ∧
    (jsonGetPath stateJson ["annotations", "io.kubernetes.cri-o.IP"] = none →
      (hcAssemble opts env c configJson stateJson).IP = "") ∧
    (∀ v, jsonGetPath stateJson ["annotations", "io.kubernetes.cri-o.IP"] = some v →
      (∀ s, v ≠ .str s) → (∀ n, v ≠ .num n) →
      (hcAssemble opts env c configJson stateJson).IP = "") ∧
    (opts.pid = "" →
      matchesRegex env.matcher opts.nameRegexp c.Metadata.Name = true →
      env.fs (configPath env.root c.Id) = some configJson →
      env.fs (statePath env.root c.Id) = some stateJson →
      ∀ res, hcProcess opts env cs = .ok res →
        hcProcess opts env (c :: cs) =
          .ok (hcAssemble opts env c configJson stateJson :: res)) := by
  refine ⟨?_, ?_, ?_, ?_, ?_⟩
  · intro h
    simp only [hcAssemble]
    exact gjsonString_empty_of_missing configJson ["root", "path"] h
  · intro h
    simp only [hcAssemble]
    exact gjsonString_empty_of_missing stateJson ["pid"] h
  · intro h
    simp only [hcAssemble]
    exact gjsonString_empty_of_missing stateJson ["annotations", "io.kubernetes.cri-o.IP"] h
  · intro v h hs hn
    simp only [hcAssemble]
    exact gjsonString_empty_of_nonscalar stateJson ["annotations", "io.kubernetes.cri-o.IP"]
      v h hs hn
  · intro hp hm hcfg hst res hres
    exact hcProcess_keeps_record opts env c cs configJson stateJson res hp hm hcfg hst hres

/-- Witness for C7: container c2's state.json has no annotations key, so
its record's IP is the empty string, and the record is still listed. -/
theorem claim_C7_tolerated_absence_witness :
    (hcAssemble optsPlain envA cB cfgB stB).IP = "" ∧
    hcProcess optsPlain envA [cB] = .ok [hcAssemble optsPlain envA cB cfgB stB] := by
  have h := claim_C7_tolerated_absence optsPlain envA cB [] cfgB stB
  exact ⟨h.2.2.1 rfl, h.2.2.2.2 rfl rfl rfl rfl [] rfl⟩

/-- Claim C8: output-format selection is total and exhaustive — the
empty value and "table" select the table encoding, "json" and "yaml"
select exactly their encodings, and any other value makes the
invocation return an error naming the offending value, with no rendered
output produced. -/
theorem claim_C8_output_selection (res : hcListResult) (out : String) :
    (out = "" ∨ out = "table" → renderOutput out res = .ok (.table (outputAsTable res))) ∧
    (out = "json" → renderOutput out res = .ok (.json res)) ∧
    (out = "yaml" → renderOutput out res = .ok (.yaml res)) ∧
    (out ∉ (["", "json", "yaml", "table"] : List String) →
      renderOutput out res = .err ("unsupported output format \"" ++ out ++ "\"") ∧
      ∀ (opts : hcListOptions) (env : ListEnv)
        (rpc : ContainerFilter → Except String (List Container)),
        opts.output = out → ∀ x, hcListContainersM opts env rpc ≠ .ok x) := by
  refine ⟨?_, ?_, ?_, fun hnot => ⟨renderOutput_unknown out res hnot, ?_⟩⟩
  · rintro (h | h) <;> subst h <;> rfl
  · intro h; subst h; rfl
  · intro h; subst h; rfl
  · intro opts env rpc ho x
    subst ho
    unfold hcListContainersM
    cases buildFilter opts.all opts.state with
    | fatal m => simp
    | err e => simp
    | ok filter =>
      dsimp only
      cases rpc filter with
      | error e => simp
      | ok containers =>
        dsimp only
        cases hcProcess opts env containers with
        | error e => simp
        | ok messages =>
          dsimp only
          rw [renderOutput_unknown opts.output { Containers := messages } hnot]
          simp

/-- Witness for C8: each valid selector picks its encoding, and
`--output=xml` yields the error naming "xml" with no rendered output. -/
theorem claim_C8_output_selection_witness :
    renderOutput "" res8 = .ok (.table (outputAsTable res8)) ∧
    renderOutput "json" res8 = .ok (.json res8) ∧
    renderOutput "yaml" res8 = .ok (.yaml res8) ∧
    renderOutput "xml" res8 = .err "unsupported output format \"xml\"" ∧
    hcListContainersM opts8 envA rpcNil ≠ .ok (.table [tableHeader]) :=
  ⟨(claim_C8_output_selection res8 "").1 (Or.inl rfl),
   (claim_C8_output_selection res8 "json").2.1 rfl,
   (claim_C8_output_selection res8 "yaml").2.2.1 rfl,
   ((claim_C8_output_selection res8 "xml").2.2.2 (by decide)).1,
   ((claim_C8_output_selection res8 "xml").2.2.2 (by decide)).2 opts8 envA rpcNil rfl
     (.table [tableHeader])⟩

/-- Claim C9: the two listing implementations are not equivalent.  In
`pidListContainers` the pid option is never consulted in any branch
(changing it never changes the result); with json or yaml output the
raw RPC response is returned before any storage correlation, name
filtering or pid filtering, uniformly in the environment.  In
`hcListContainers` the pid filter and the storage correlation take
effect in json, yaml and table modes alike, separating the two results
at concrete inputs. -/
theorem claim_C9_implementations_differ :
    (∀ (opts : pidListOptions) (env : ListEnv)
        (rpc : ContainerFilter → Except String (List Container)) (p : String),
        pidListContainersM opts env rpc = pidListContainersM { opts with pid := p } env rpc) ∧
    (∀ (opts : pidListOptions) (env : ListEnv)
        (rpc : ContainerFilter → Except String (List Container))
        (f : ContainerFilter) (cs : List Container),
        buildFilter opts.all opts.state = .ok f → rpc f = .ok cs →
        (opts.output = "json" → pidListContainersM opts env rpc = .ok (.rawJson cs)) ∧
        (opts.output = "yaml" → pidListContainersM opts env rpc = .ok (.rawYaml cs))) ∧
    hcListContainersM optsHCjson7 envA rpcAB ≠ hcListContainersM optsHCjsonAll envA rpcAB ∧
    hcListContainersM optsHCjson7 envA rpcAB ≠ hcListContainersM optsHCjson7 envABad rpcAB ∧
    hcListContainersM optsHCyaml7 envA rpcAB ≠ hcListContainersM optsHCyamlAll envA rpcAB ∧
    hcListContainersM optsHCtable7 envA rpcAB ≠ hcListContainersM optsHCtableAll envA rpcAB := by
  refine ⟨?_, ?_, ?_, ?_, ?_, ?_⟩
  · intro opts env rpc p
    exact (pidListContainersM_pid_irrel opts env rpc p).symm
  · intro opts env rpc f cs hf hr
    exact ⟨fun ho => pidListContainersM_json_raw opts env rpc f cs hf hr ho,
           fun ho => pidListContainersM_yaml_raw opts env rpc f cs hf hr ho⟩
  · decide
  · decide
  · decide
  · decide

/-- Witness for C9: with json/yaml output and an empty filesystem, the
`pids` command returns the raw two-container response (name pattern and
pid are ignored), and changing the pid option changes nothing. -/
theorem claim_C9_implementations_differ_witness :
    pidListContainersM optsPidJson envABad rpcAB =
      pidListContainersM { optsPidJson with pid := "7" } envABad rpcAB ∧
    pidListContainersM optsPidJson envABad rpcAB = .ok (.rawJson [cA, cB]) ∧
    pidListContainersM optsPidYaml envABad rpcAB = .ok (.rawYaml [cA, cB]) :=
  ⟨claim_C9_implementations_differ.1 optsPidJson envABad rpcAB "7",
   (claim_C9_implementations_differ.2.1 optsPidJson envABad rpcAB
      { State := none } [cA, cB] rfl rfl).1 rfl,
   (claim_C9_implementations_differ.2.1 optsPidYaml envABad rpcAB
      { State := none } [cA, cB] rfl rfl).2 rfl⟩

/-- Claim C10: when exactly one of the user and group remap values is
non-empty, the configuration loader mirrors it to the other before
building ID mappings; and whenever both values end up non-empty and the
mapping builder succeeds, the store options' UID map and GID map are
both set from its result. -/
theorem claim_C10_remap_mirror_and_maps
    (nim : String → String → Except String (List IDMap × List IDMap))
    (u g : String) (so : StoreOptions) :
    ((u ≠ "" ∧ g = "") → mirrorRemap u g = (u, u)) ∧
    ((g ≠ "" ∧ u = "") → mirrorRemap u g = (g, g)) ∧
    (∀ uids gids, (mirrorRemap u g).1 ≠ "" → (mirrorRemap u g).2 ≠ "" →
      nim (mirrorRemap u g).1 (mirrorRemap u g).2 = .ok (uids, gids) →
      (applyRemap nim u g so).UIDMap = uids ∧ (applyRemap nim u g so).GIDMap = gids) := by
  refine ⟨?_, ?_, ?_⟩
  · rintro ⟨hu, hg⟩
    unfold mirrorRemap
    simp [hu, hg]
  · rintro ⟨hg, hu⟩
    unfold mirrorRemap
    simp [hu, hg]
  · intro uids gids h1 h2 hnim
    unfold applyRemap
    dsimp only
    rw [if_pos ⟨h1, h2⟩, hnim]
    exact ⟨rfl, rfl⟩

/-- Witness for C10: a lone user remap value is mirrored to the group
value, and a successful mapping build sets both maps. -/
theorem claim_C10_remap_mirror_and_maps_witness :
    mirrorRemap "1000:1000:1" "" = ("1000:1000:1", "1000:1000:1") ∧
    (applyRemap nimOk "1000:1000:1" "" {}).UIDMap = [idm1] ∧
    (applyRemap nimOk "1000:1000:1" "" {}).GIDMap = [idm2] := by
  have h := claim_C10_remap_mirror_and_maps nimOk "1000:1000:1" "" {}
  have hset := h.2.2 [idm1] [idm2] (by decide) (by decide) rfl
  exact ⟨h.1 ⟨by decide, rfl⟩, hset.1, hset.2⟩
